import Mathlib

/-!
Shallow embedding of `src/socket_threads.py` (Foxlinx_shell), the gateway
process exposing three TCP server endpoints (Node Update / Topology,
Command Handler, Real-time Data / Telemetry).

Python strings are modelled as `List Char` so that every string operation
(`split`, `strip`, membership tests) is an executable Lean function that
mirrors the CPython semantics actually exercised by the code.  Bytes are
modelled as `Nat` values `< 256`; sockets are modelled as the list of bytes
the peer will ever deliver before closing, so that a read past the end of
the list corresponds to CPython's zero-length `recv` (peer closed).
-/

namespace Foxlinx

/-- A Python `str`, modelled as its list of characters. -/
abbrev PyStr := List Char

/-- Python's `str.split(sep)` for a single-character separator and no
`maxsplit` bound: `"a||b".split('|') == ['a','','b']`, `"".split('|') == ['']`.
The result is always non-empty. -/
def pySplitChar (sep : Char) : PyStr → List PyStr
  | [] => [[]]
  | c :: cs =>
    match pySplitChar sep cs with
    | [] => [[]]
    | h :: t => if c = sep then [] :: h :: t else (c :: h) :: t

/-- Python's `str.split(sep, 1)` for a single-character separator:
splits at the first occurrence only, returning the part before it and the
part after it (`none` when the separator is absent). -/
def pySplitOnce (sep : Char) : PyStr → PyStr × Option PyStr
  | [] => ([], none)
  | c :: cs =>
    if c = sep then ([], some cs)
    else
      let r := pySplitOnce sep cs
      (c :: r.1, r.2)

/-- The characters Python's `str.strip()` removes (ASCII whitespace; the
payloads the program handles are ASCII, so the extra Unicode whitespace
CPython also strips never occurs). -/
def isPySpace (c : Char) : Bool :=
  c = ' ' || c = '\t' || c = '\n' || c = '\r' || c = '\x0b' || c = '\x0c'

/-- Python's `str.strip()`: remove leading and trailing whitespace. -/
def pyStrip (s : PyStr) : PyStr :=
  ((s.dropWhile isPySpace).reverse.dropWhile isPySpace).reverse

/-- Python's `c in s` membership test for a single character. -/
def pyContains (s : PyStr) (c : Char) : Bool :=
  s.any (· = c)

/-- `int.from_bytes(b, byteorder='big')`: big-endian byte list to natural. -/
def intFromBytesBE (bs : List Nat) : Nat :=
  bs.foldl (fun acc b => acc * 256 + b) 0

/-! ### Framed channel reader

`NodeUpdateThread.run` (lines 130-181) and `RealTimeDataThread.run`
(lines 611-669) contain the identical per-message receive logic:
peek 4 bytes with `MSG_PEEK`; if exactly 4 bytes were peeked and they form a
big-endian integer `L` with `0 < L < 65536`, consume the 4 bytes and then
accumulate exact-count reads of `min(4096, remaining)` bytes until `L` bytes
arrived (a zero-length read raising `ConnectionError`); otherwise fall back
to a single raw `recv(4096)`.

The socket is modelled as the list of bytes the peer delivers before
closing; `recv(n)` returns the first `min(n, available)` bytes and a
zero-length result exactly when the list is exhausted (peer closed). -/

/-- The exact-count accumulation loop (lines 150-158 / 631-638): while
`received < data_length`, `chunk = recv(min(4096, remaining))`; an empty
chunk raises `ConnectionError` (modelled as `none`). Returns the collected
payload and the unconsumed rest of the stream. -/
def recvExact (stream : List Nat) (need : Nat) : Option (List Nat × List Nat) :=
  if h : need = 0 then some ([], stream)
  else
    let chunk := stream.take (min 4096 need)
    if hc : chunk = [] then none
    else
      match recvExact (stream.drop chunk.length) (need - chunk.length) with
      | some (d, rest) => some (chunk ++ d, rest)
      | none => none
termination_by need
decreasing_by
  have h1 : 0 < need := Nat.pos_of_ne_zero h
  unfold chunk at hc
  have h2 : 0 < (stream.take (min 4096 need)).length := List.length_pos.mpr hc
  omega

/-- Result of one pass of the receive logic over the modelled stream. -/
inductive RecvResult where
  /-- Length-prefixed frame: decoded payload bytes and unconsumed rest. -/
  | frame (payload : List Nat) (rest : List Nat)
  /-- Raw-text fallback: one bounded `recv(4096)` result and unconsumed rest. -/
  | raw (payload : List Nat) (rest : List Nat)
  /-- `ConnectionError` from a zero-length read mid-frame. -/
  | peerClosed
  /-- `socket.timeout` on the peek: no bytes available this iteration. -/
  | noData
deriving DecidableEq, Repr

/-- One iteration of the receive logic of `NodeUpdateThread.run`
(lines 134-175) and `RealTimeDataThread.run` (lines 615-663) over the
modelled byte stream. -/
def readMessage (stream : List Nat) : RecvResult :=
  match stream with
  | [] => .noData
  | _ :: _ =>
    if (stream.take 4).length = 4 ∧ 0 < intFromBytesBE (stream.take 4) ∧
        intFromBytesBE (stream.take 4) < 65536 then
      match recvExact (stream.drop 4) (intFromBytesBE (stream.take 4)) with
      | some (payload, rest) => .frame payload rest
      | none => .peerClosed
    else
      .raw (stream.take 4096) (stream.drop 4096)

/-! ### Sensor history (bounded deque)

`RealTimeDataThread.__init__` (line 556) creates
`self.sensor_data_list = deque(maxlen=max_data_points)` with
`max_data_points: int = 1000` as the default;
`_process_sensor_data` appends one processed sample per message
(lines 741-742 and 762-763). -/

/-- Default of the `max_data_points` parameter of
`RealTimeDataThread.__init__` (line 544). -/
def maxDataPointsDefault : Nat := 1000

/-- `deque(maxlen=cap).append(x)`: append on the right, evicting from the
left whatever exceeds the capacity. -/
def dequeAppend (cap : Nat) (l : List α) (x : α) : List α :=
  let l' := l ++ [x]
  l'.drop (l'.length - cap)

/-! ### Python runtime values

Values that flow out of `json.loads` and through the two payload parsers.
A Python `float` is a binary64; the program never computes with the stored
floats (they are stored and displayed opaquely), so a finite float is
represented by the exact rational value of its source literal — rounding to
binary64 never influences any behaviour the claims mention. -/

/-- A Python `float` value, as produced by `float(...)` or by `json.loads`
on a decimal number token. -/
inductive PyFloat where
  | finite (q : ℚ)
  | inf (neg : Bool)
  | nan
deriving DecidableEq, Repr

/-- A Python runtime value as produced by `json.loads` or the text parsers
(dicts are association lists in insertion order; `json.loads` never yields
duplicate keys). -/
inductive PyVal where
  | vnone
  | vbool (b : Bool)
  | vint (n : ℤ)
  | vfloat (f : PyFloat)
  | vstr (s : PyStr)
  | vlist (xs : List PyVal)
  | vdict (kvs : List (PyStr × PyVal))
deriving Repr

mutual
/-- Boolean equality on `PyVal` (the nested induction prevents deriving). -/
def PyVal.beq : PyVal → PyVal → Bool
  | .vnone, .vnone => true
  | .vbool a, .vbool b => a == b
  | .vint a, .vint b => a == b
  | .vfloat a, .vfloat b => a == b
  | .vstr a, .vstr b => a == b
  | .vlist xs, .vlist ys => PyVal.beqList xs ys
  | .vdict xs, .vdict ys => PyVal.beqKvs xs ys
  | _, _ => false

/-- Elementwise `PyVal.beq` on lists. -/
def PyVal.beqList : List PyVal → List PyVal → Bool
  | [], [] => true
  | x :: xs, y :: ys => PyVal.beq x y && PyVal.beqList xs ys
  | _, _ => false

/-- Entrywise `PyVal.beq` on association lists. -/
def PyVal.beqKvs : List (PyStr × PyVal) → List (PyStr × PyVal) → Bool
  | [], [] => true
  | (k1, v1) :: xs, (k2, v2) :: ys =>
    k1 == k2 && PyVal.beq v1 v2 && PyVal.beqKvs xs ys
  | _, _ => false
end

mutual
theorem PyVal.beq_iff : ∀ a b : PyVal, PyVal.beq a b = true ↔ a = b
  | .vnone, b => by cases b <;> simp [PyVal.beq]
  | .vbool a, b => by cases b <;> simp [PyVal.beq]
  | .vint a, b => by cases b <;> simp [PyVal.beq]
  | .vfloat a, b => by cases b <;> simp [PyVal.beq]
  | .vstr a, b => by cases b <;> simp [PyVal.beq]
  | .vlist xs, .vlist ys => by
    simpa [PyVal.beq] using PyVal.beqList_iff xs ys
  | .vlist xs, .vnone => by simp [PyVal.beq]
  | .vlist xs, .vbool _ => by simp [PyVal.beq]
  | .vlist xs, .vint _ => by simp [PyVal.beq]
  | .vlist xs, .vfloat _ => by simp [PyVal.beq]
  | .vlist xs, .vstr _ => by simp [PyVal.beq]
  | .vlist xs, .vdict _ => by simp [PyVal.beq]
  | .vdict xs, .vdict ys => by
    simpa [PyVal.beq] using PyVal.beqKvs_iff xs ys
  | .vdict xs, .vnone => by simp [PyVal.beq]
  | .vdict xs, .vbool _ => by simp [PyVal.beq]
  | .vdict xs, .vint _ => by simp [PyVal.beq]
  | .vdict xs, .vfloat _ => by simp [PyVal.beq]
  | .vdict xs, .vstr _ => by simp [PyVal.beq]
  | .vdict xs, .vlist _ => by simp [PyVal.beq]

theorem PyVal.beqList_iff : ∀ xs ys : List PyVal, PyVal.beqList xs ys = true ↔ xs = ys
  | [], [] => by simp [PyVal.beqList]
  | [], _ :: _ => by simp [PyVal.beqList]
  | _ :: _, [] => by simp [PyVal.beqList]
  | x :: xs, y :: ys => by
    simp [PyVal.beqList, PyVal.beq_iff x y, PyVal.beqList_iff xs ys]

theorem PyVal.beqKvs_iff : ∀ xs ys : List (PyStr × PyVal),
    PyVal.beqKvs xs ys = true ↔ xs = ys
  | [], [] => by simp [PyVal.beqKvs]
  | [], _ :: _ => by simp [PyVal.beqKvs]
  | _ :: _, [] => by simp [PyVal.beqKvs]
  | (k1, v1) :: xs, (k2, v2) :: ys => by
    simp [PyVal.beqKvs, PyVal.beq_iff v1 v2, PyVal.beqKvs_iff xs ys,
      Prod.ext_iff, and_assoc]
end

instance : DecidableEq PyVal := fun a b =>
  decidable_of_iff (PyVal.beq a b = true) (PyVal.beq_iff a b)

/-- Python dict assignment `d[k] = v`: overwrite in place if the key exists
(keeping its insertion position), otherwise append at the end. -/
def dictInsert (kvs : List (PyStr × α)) (k : PyStr) (v : α) : List (PyStr × α) :=
  if kvs.any (fun p => p.1 == k) then
    kvs.map (fun p => if p.1 == k then (k, v) else p)
  else kvs ++ [(k, v)]

/-- Python dict lookup `d[k]` / `k in d` combined: first (only) binding. -/
def dictGet (kvs : List (PyStr × α)) (k : PyStr) : Option α :=
  (kvs.find? (fun p => p.1 == k)).map (·.2)

/-! ### Python `float(string)`

`_process_sensor_data` calls `float(value)` on string tokens (lines 731 and
756).  CPython accepts: surrounding whitespace; an optional sign; `inf`,
`infinity` or `nan` (case-insensitive); or a decimal literal
`digits [. digits] [e [sign] digits]` with at least one mantissa digit,
where `_` may separate two digits. -/

/-- Digit value of an ASCII character. -/
def digitVal (c : Char) : Option Nat :=
  if '0' ≤ c ∧ c ≤ '9' then some (c.toNat - 48) else none

/-- Continue a digit run: accumulated value, digit count; underscores must
sit between two digits, otherwise the whole literal is rejected. -/
def digitRunAux (acc cnt : Nat) : List Char → Option (Nat × Nat × List Char)
  | [] => some (acc, cnt, [])
  | c :: cs =>
    match digitVal c with
    | some d => digitRunAux (acc * 10 + d) (cnt + 1) cs
    | none =>
      if c = '_' then
        match cs with
        | c2 :: cs2 =>
          match digitVal c2 with
          | some d => digitRunAux (acc * 10 + d) (cnt + 1) cs2
          | none => none
        | [] => none
      else some (acc, cnt, c :: cs)

/-- A non-empty digit run (with `_` separators): value, count, rest. -/
def digitRun : List Char → Option (Nat × Nat × List Char)
  | [] => none
  | c :: cs =>
    match digitVal c with
    | some d => digitRunAux d 1 cs
    | none => none

/-- Optional sign: `true` means negative. -/
def parseSign : List Char → Bool × List Char
  | '+' :: cs => (false, cs)
  | '-' :: cs => (true, cs)
  | cs => (false, cs)

/-- Mantissa `digits [. digits]`, `digits.`, or `.digits`: value as
(numerator, number of fractional digits), requiring at least one digit. -/
def parseMantissa (s : List Char) : Option (Nat × Nat × List Char) :=
  match digitRun s with
  | some (ip, _, rest) =>
    match rest with
    | '.' :: rest2 =>
      match digitRun rest2 with
      | some (fp, fcnt, rest3) => some (ip * 10 ^ fcnt + fp, fcnt, rest3)
      | none => some (ip, 0, rest2)
    | _ => some (ip, 0, rest)
  | none =>
    match s with
    | '.' :: rest2 =>
      match digitRun rest2 with
      | some (fp, fcnt, rest3) => some (fp, fcnt, rest3)
      | none => none
    | _ => none

/-- Optional exponent `e|E [sign] digits`. -/
def parseExponent : List Char → Option (Int × List Char)
  | c :: cs =>
    if c = 'e' ∨ c = 'E' then
      let (neg, cs2) := parseSign cs
      match digitRun cs2 with
      | some (e, _, rest) => some (if neg then -(e : Int) else (e : Int), rest)
      | none => none
    else some (0, c :: cs)
  | [] => some (0, [])

/-- Case-insensitive comparison against an ASCII keyword. -/
def matchesKeyword (s : List Char) (kw : List Char) : Bool :=
  s.map Char.toLower == kw

/-- CPython `float(s)` on a `str` argument: `some` float value on success,
`none` when `ValueError` is raised. -/
def pyFloatOfString (s : PyStr) : Option PyFloat :=
  let t := pyStrip s
  let (neg, body) := parseSign t
  if matchesKeyword body ("inf".toList) ∨ matchesKeyword body ("infinity".toList) then
    some (.inf neg)
  else if matchesKeyword body ("nan".toList) then
    some .nan
  else
    match parseMantissa body with
    | some (m, fcnt, rest) =>
      match parseExponent rest with
      | some (e, []) =>
        let num : ℤ := if neg then -(m : ℤ) else (m : ℤ)
        let e10 : ℤ := e - (fcnt : ℤ)
        some (.finite (if 0 ≤ e10 then mkRat (num * ((10 ^ e10.toNat : ℕ) : ℤ)) 1
          else mkRat num (10 ^ (-e10).toNat)))
      | _ => none
    | none => none

/-! ### Topology endpoint (`NodeUpdateThread`)

State stores of `NodeUpdateThread.__init__` (lines 76-77):
`connected_devices: Dict[str, str]` (values come out of `json.loads`
unchecked, so the model keeps them as `PyVal`) and
`broadcast_node_list: List[str]`. -/

structure TopologyState where
  connected_devices : List (PyStr × PyVal)
  broadcast_node_list : List PyStr
deriving DecidableEq, Repr

/-- Which handler of `_process_node_update` ran to completion. -/
inductive ProcessBranch where
  /-- The JSON-object path (lines 233-254) applied the update. -/
  | jsonApplied
  /-- `json.JSONDecodeError` was raised and the delimited-text fallback
  (lines 262-279) applied the update. -/
  | textApplied
  /-- A non-`JSONDecodeError` exception reached the generic handler
  (lines 283-285): nothing was applied and the text fallback never ran. -/
  | processingError
deriving DecidableEq, Repr

/-- Outcome of `json.loads(data)`: the parsed value, or `JSONDecodeError`.
The JSON grammar itself is external library code; the parse outcome is an
input of the model. -/
inductive ParseOutcome where
  | ok (v : PyVal)
  | jsonError
deriving Repr

/-- Python `str(x)` as applied to broadcast-node entries (line 245).
The program only ever renders scalars here; the claims constrain the list
elements to strings, so the (shortest-round-trip) decimal rendering CPython
would use for floats and the bracketed rendering for containers are not
modelled and those cases return the empty string. -/
def pyStrOf : PyVal → PyStr
  | .vnone => "None".toList
  | .vbool true => "True".toList
  | .vbool false => "False".toList
  | .vint n => (toString n).toList
  | .vstr s => s
  | .vfloat _ => []
  | .vlist _ => []
  | .vdict _ => []

/-- The JSON-object branch of `_process_node_update` (lines 233-251):
`devices` must be an object to replace the registry wholesale; a
`broadcast_nodes` array replaces the node list with its stringified
elements, a `broadcast_nodes` object is degraded to its key list, and any
other shape leaves the node list unchanged. -/
def applyJsonUpdate (kvs : List (PyStr × PyVal)) (st : TopologyState) : TopologyState :=
  let st1 :=
    match dictGet kvs ("devices".toList) with
    | some (.vdict d) => { st with connected_devices := d }
    | some _ => st
    | none => st
  match dictGet kvs ("broadcast_nodes".toList) with
  | some (.vlist xs) => { st1 with broadcast_node_list := xs.map pyStrOf }
  | some (.vdict d) => { st1 with broadcast_node_list := d.map (·.1) }
  | some _ => st1
  | none => st1

/-- Part 1 of the delimited-text fallback (lines 265-270): split on `,`,
keep entries containing `:`, split each at the first `:` and strip both
sides, building a dict of device→status pairs. -/
def parseDevicesText (devicesStr : PyStr) : List (PyStr × PyVal) :=
  (pySplitChar ',' devicesStr).foldl
    (fun devices entry =>
      if pyContains entry ':' then
        let (deviceId, status?) := pySplitOnce ':' entry
        dictInsert devices (pyStrip deviceId) (.vstr (pyStrip (status?.getD [])))
      else devices)
    []

/-- The delimited-text fallback of `_process_node_update` (lines 262-277):
`parts = data.split('|')`; part 1 always replaces the registry (the split
always yields at least one part); `parts[1]`, when it exists, replaces the
node list with its stripped non-empty comma entries.  Text after a second
`|` lands in `parts[2:]` and is never read. -/
def processNodeUpdateText (data : PyStr) (st : TopologyState) : TopologyState :=
  let parts := pySplitChar '|' data
  let st1 := { st with connected_devices := parseDevicesText (parts.headD []) }
  if parts.length ≥ 2 then
    let nodes := ((pySplitChar ',' (parts.getD 1 [])).map pyStrip).filter (fun n => !n.isEmpty)
    { st1 with broadcast_node_list := nodes }
  else st1

/-- Modelled from the spec's wording (§4.2 step 2, quoted by the claim):
the delimited-text parser would "split on `|` into AT MOST TWO parts", so
everything after the first `|` — second `|` included — would belong to
part 2.  Stated only to compare against `processNodeUpdateText`, which
follows the source's unbounded `data.split('|')` and reads `parts[1]`
alone. -/
def processNodeUpdateTextSpec (data : PyStr) (st : TopologyState) : TopologyState :=
  let (part1, part2?) := pySplitOnce '|' data
  let st1 := { st with connected_devices := parseDevicesText part1 }
  match part2? with
  | some part2 =>
    { st1 with broadcast_node_list :=
        ((pySplitChar ',' part2).map pyStrip).filter (fun n => !n.isEmpty) }
  | none => st1

/-- `NodeUpdateThread._process_node_update` (lines 223-285) as a state
transformer, also reporting which branch ran.  A successful `json.loads`
whose root is not a dict raises the plain `ValueError` of line 231, which
`except json.JSONDecodeError` (line 256) does not catch: the generic
handler (line 283) absorbs it, skipping the text fallback and the state
updates alike. -/
def processNodeUpdate (parsed : ParseOutcome) (data : PyStr) (st : TopologyState) :
    TopologyState × ProcessBranch :=
  match parsed with
  | .ok (.vdict kvs) => (applyJsonUpdate kvs st, .jsonApplied)
  | .ok _ => (st, .processingError)
  | .jsonError => (processNodeUpdateText data st, .textApplied)

/-! ### Telemetry endpoint (`RealTimeDataThread._process_sensor_data`, lines 717-772) -/

/-- Per-value coercion of the JSON branch (lines 726-736): only `str`
values go through `float(value)`, falling back to the original string on
`ValueError`; every non-`str` value (ints, floats, bools, `None`,
containers) is stored exactly as `json.loads` produced it. -/
def coerceSensorValue (v : PyVal) : PyVal :=
  match v with
  | .vstr s =>
    match pyFloatOfString s with
    | some f => .vfloat f
    | none => .vstr s
  | other => other

/-- JSON branch of `_process_sensor_data` (lines 721-742): rebuild the dict
with coerced values, attach `timestamp`, producing the stored sample. -/
def processSensorJson (kvs : List (PyStr × PyVal)) (ts : PyStr) : List (PyStr × PyVal) :=
  let processed := kvs.foldl (fun acc p => dictInsert acc p.1 (coerceSensorValue p.2)) []
  dictInsert processed ("timestamp".toList) (.vstr ts)

/-- Text branch of `_process_sensor_data` (lines 750-763): comma entries
containing `:` are split at the first `:`; the stripped value goes through
`float(...)` with string fallback; `timestamp` is attached. -/
def processSensorText (data : PyStr) (ts : PyStr) : List (PyStr × PyVal) :=
  let sensorDict := (pySplitChar ',' data).foldl
    (fun acc entry =>
      if pyContains entry ':' then
        let (name, value?) := pySplitOnce ':' entry
        let value := pyStrip (value?.getD [])
        match pyFloatOfString value with
        | some f => dictInsert acc (pyStrip name) (.vfloat f)
        | none => dictInsert acc (pyStrip name) (.vstr value)
      else acc)
    []
  dictInsert sensorDict ("timestamp".toList) (.vstr ts)

/-- `_process_sensor_data` as a transformer of the bounded history
(`sensor_data_list`, a `deque(maxlen=cap)`).  A successful `json.loads`
whose root is not a dict makes `sensor_data.items()` raise
`AttributeError`, absorbed by the generic handler (line 770): nothing is
appended.  The capture timestamp `ts` (`datetime.now().isoformat()`) is an
input of the model. -/
def processSensorData (parsed : ParseOutcome) (data : PyStr) (ts : PyStr)
    (cap : Nat) (hist : List (List (PyStr × PyVal))) : List (List (PyStr × PyVal)) :=
  match parsed with
  | .ok (.vdict kvs) => dequeAppend cap hist (processSensorJson kvs ts)
  | .ok _ => hist
  | .jsonError => dequeAppend cap hist (processSensorText data ts)

/-! ### Command endpoint (`CommandHandlerThread`) -/

/-- The modelled mutable state of `CommandHandlerThread`: the FIFO
`command_queue` (line 345), the `connected` flag, and whether
`self.client_sock` is a live socket ( `true`) or `None`/closed. -/
structure CommandHandlerState where
  command_queue : List PyStr
  connected : Bool
  clientSock : Bool
deriving DecidableEq, Repr

/-- Whether `self.client_sock.sendall(...)` (line 476) succeeds or raises
a socket error. -/
inductive SendOutcome where
  | ok
  | sendError
deriving DecidableEq, Repr

/-- `CommandHandlerThread._send_raw_command` (lines 466-521) restricted to
the modelled state: an early return when no live connection exists; on a
`sendall` failure the handler marks `connected = False` and closes/clears
`client_sock` (lines 513-521).  Errors while reading the optional response
are caught internally (lines 506-511) and mutate none of the modelled
state. -/
def sendRawCommand (st : CommandHandlerState) (outcome : SendOutcome) : CommandHandlerState :=
  if !st.clientSock || !st.connected then st
  else
    match outcome with
    | .ok => st
    | .sendError => { st with connected := false, clientSock := false }

/-- The queue-draining step of `CommandHandlerThread.run` (lines 431-437):
while connected with a live socket and a non-empty queue, pop exactly one
command with `popleft()` and pass it to `_send_raw_command`; the popped
command is never pushed back. -/
def commandQueueStep (st : CommandHandlerState) (outcome : SendOutcome) : CommandHandlerState :=
  if !st.command_queue.isEmpty && st.connected && st.clientSock then
    sendRawCommand { st with command_queue := st.command_queue.tail } outcome
  else st

/-! ### Shutdown (`stop` methods and `SocketManager.stop_all`) -/

/-- The socket-lifecycle flags of one endpoint thread: `running`,
`connected`, and whether the listener (`self.sock`) and the peer connection
(`self.client_sock`) are currently open. -/
structure EndpointSockets where
  running : Bool
  connected : Bool
  sockOpen : Bool
  clientSockOpen : Bool
deriving DecidableEq, Repr

/-- `NodeUpdateThread.stop` (lines 314-329): clear `running` and
`connected`, close and clear `client_sock`, close and clear `sock`. -/
def nodeUpdateStop (_st : EndpointSockets) : EndpointSockets :=
  { running := false, connected := false, sockOpen := false, clientSockOpen := false }

/-- `CommandHandlerThread.stop` (lines 529-538): clear `running` and
`connected` and close the listener `sock`; `client_sock` is not touched. -/
def commandHandlerStop (st : EndpointSockets) : EndpointSockets :=
  { st with running := false, connected := false, sockOpen := false }

/-- `RealTimeDataThread.stop` (lines 825-840): clear `running` and
`connected`, close and clear `client_sock`, close and clear `sock`. -/
def realTimeDataStop (_st : EndpointSockets) : EndpointSockets :=
  { running := false, connected := false, sockOpen := false, clientSockOpen := false }

/-- The manager's view of the three endpoint workers. -/
structure ManagerState where
  nodeUpdate : EndpointSockets
  commandHandler : EndpointSockets
  realTimeData : EndpointSockets
deriving DecidableEq, Repr

/-- Observable shutdown actions of `SocketManager.stop_all`, in program
order. -/
inductive ManagerEvent where
  | stopInput
  | stopNodeUpdate
  | stopCommandHandler
  | stopRealTimeData
  | joinWorker (timeoutSeconds : ℚ)
deriving DecidableEq, Repr

/-- `SocketManager.stop_all` (lines 959-983): stop the input collaborator
and the three endpoint threads (each `stop` clears the running flag and
closes sockets as its own code does), then `join` each of the four workers
with `timeout=2.0`.  The returned event list records that every stop
precedes every join. -/
def socketManagerStopAll (st : ManagerState) : ManagerState × List ManagerEvent :=
  ({ nodeUpdate := nodeUpdateStop st.nodeUpdate,
     commandHandler := commandHandlerStop st.commandHandler,
     realTimeData := realTimeDataStop st.realTimeData },
   [.stopInput, .stopNodeUpdate, .stopCommandHandler, .stopRealTimeData,
    .joinWorker 2, .joinWorker 2, .joinWorker 2, .joinWorker 2])

/-! ### UTF-8 decoding (`bytes.decode('utf-8', errors='ignore')`)

Every receive path decodes with `errors='ignore'` (lines 160, 178, 411,
491, 501, 641, 666).  The decoder below follows CPython/Unicode maximal-
subpart error handling, parameterised by what an ill-formed subpart
contributes: nothing for `errors='ignore'`, one U+FFFD for
`errors='replace'`. -/

/-- Is `b` a UTF-8 continuation byte (`0x80..0xBF`)? -/
def isCont (b : Nat) : Bool := 0x80 ≤ b && b ≤ 0xBF

/-- Admissible second byte after lead `b`, encoding the tightened ranges
that exclude overlong forms, surrogates and code points above U+10FFFF. -/
def utf8SecondByteOk (b c : Nat) : Bool :=
  if b = 0xE0 then 0xA0 ≤ c && c ≤ 0xBF
  else if b = 0xED then 0x80 ≤ c && c ≤ 0x9F
  else if b = 0xF0 then 0x90 ≤ c && c ≤ 0xBF
  else if b = 0xF4 then 0x80 ≤ c && c ≤ 0x8F
  else isCont c

/-- The UTF-8 scanner shared by every error policy: `some c` for each
well-formed sequence, `none` for each maximal prefix of an ill-formed
sequence, resuming at the following byte (CPython's maximal-subpart
handling, on which the registered error handler is then applied).  The
`fuel` argument only makes the recursion structural: every step consumes
at least one byte, so with `fuel = bs.length` (as `utf8Tokens` passes) the
zero-fuel clause is unreachable. -/
def utf8TokensGo : Nat → List Nat → List (Option Char)
  | _, [] => []
  | 0, _ :: _ => []
  | fuel + 1, b :: rest =>
    if b < 0x80 then
      some (Char.ofNat b) :: utf8TokensGo fuel rest
    else if 0xC2 ≤ b && b ≤ 0xDF then
      match rest with
      | c1 :: r =>
        if isCont c1 then
          some (Char.ofNat ((b - 0xC0) * 0x40 + (c1 - 0x80))) :: utf8TokensGo fuel r
        else none :: utf8TokensGo fuel (c1 :: r)
      | [] => [none]
    else if 0xE0 ≤ b && b ≤ 0xEF then
      match rest with
      | c1 :: r =>
        if utf8SecondByteOk b c1 then
          match r with
          | c2 :: r2 =>
            if isCont c2 then
              some (Char.ofNat ((b - 0xE0) * 0x1000 + (c1 - 0x80) * 0x40 + (c2 - 0x80))) ::
                utf8TokensGo fuel r2
            else none :: utf8TokensGo fuel (c2 :: r2)
          | [] => [none]
        else none :: utf8TokensGo fuel (c1 :: r)
      | [] => [none]
    else if 0xF0 ≤ b && b ≤ 0xF4 then
      match rest with
      | c1 :: r =>
        if utf8SecondByteOk b c1 then
          match r with
          | c2 :: r2 =>
            if isCont c2 then
              match r2 with
              | c3 :: r3 =>
                if isCont c3 then
                  some (Char.ofNat ((b - 0xF0) * 0x40000 + (c1 - 0x80) * 0x1000 +
                      (c2 - 0x80) * 0x40 + (c3 - 0x80))) :: utf8TokensGo fuel r3
                else none :: utf8TokensGo fuel (c3 :: r3)
              | [] => [none]
            else none :: utf8TokensGo fuel (c2 :: r2)
          | [] => [none]
        else none :: utf8TokensGo fuel (c1 :: r)
      | [] => [none]
    else
      none :: utf8TokensGo fuel rest

/-- The token stream of a byte payload. -/
def utf8Tokens (bs : List Nat) : List (Option Char) :=
  utf8TokensGo bs.length bs

/-- UTF-8 decode with maximal-subpart error handling: each ill-formed
subpart contributes `err` (empty for `errors='ignore'`, one U+FFFD for
`errors='replace'`). -/
def utf8DecodeWith (err : List Char) (bs : List Nat) : List Char :=
  (utf8Tokens bs).flatMap fun t =>
    match t with
    | some c => [c]
    | none => err

/-- `payload.decode('utf-8', errors='ignore')`: ill-formed subparts are
dropped.  This is what every receive path of the program calls. -/
def utf8DecodeIgnore (bs : List Nat) : List Char := utf8DecodeWith [] bs

/-- Modelled from the spec: decoding "with invalid sequences replaced
rather than rejected", i.e. `errors='replace'` semantics where each
maximal ill-formed subpart becomes one U+FFFD.  Stated only to compare the
spec's wording against the source's `errors='ignore'`. -/
def utf8DecodeReplaceSpec (bs : List Nat) : List Char :=
  utf8DecodeWith [Char.ofNat 0xFFFD] bs

/-- The message a receive pass hands to the payload processor, following
`NodeUpdateThread.run` (lines 159-181) and `RealTimeDataThread.run`
(lines 640-669): a length-prefixed frame is decoded with `errors='ignore'`
and passed as-is; a raw read is decoded the same way, then stripped, and
dropped entirely when the strip leaves nothing. -/
def decodedMessage : RecvResult → Option PyStr
  | .frame payload _ => some (utf8DecodeIgnore payload)
  | .raw payload _ =>
    let d := pyStrip (utf8DecodeIgnore payload)
    if d.isEmpty then none else some d
  | .peerClosed => none
  | .noData => none

/-- Shape tests on `PyVal`, mirroring `isinstance(value, str)` (line 728),
`isinstance(update_data, dict)` (line 230) and the float check of the
display code. -/
def PyVal.isStr : PyVal → Bool
  | .vstr _ => true
  | _ => false

/-- `isinstance(x, dict)`. -/
def PyVal.isDict : PyVal → Bool
  | .vdict _ => true
  | _ => false

/-- `isinstance(x, float)`. -/
def PyVal.isFloat : PyVal → Bool
  | .vfloat _ => true
  | _ => false

/-! ## Supporting lemmas -/

/-- The accumulation loop collects exactly `need` bytes off the front of the
stream when they are available, and reports the peer closed otherwise. -/
theorem recvExact_eq (need : Nat) : ∀ s : List Nat,
    recvExact s need =
      if need ≤ s.length then some (s.take need, s.drop need) else none := by
  induction need using Nat.strong_induction_on with
  | _ need ih =>
    intro s
    rw [recvExact]
    by_cases h0 : need = 0
    · subst h0; simp
    · simp only [h0, dite_false]
      by_cases hs : s = []
      · subst hs
        have h1 : ¬ need ≤ ([] : List Nat).length := by simp; omega
        simp only [List.take_nil, dite_true, if_neg h1]
      · have hchunk : s.take (min 4096 need) ≠ [] := by
          intro hnil
          rcases List.take_eq_nil_iff.mp hnil with h | h
          · omega
          · exact hs h
        simp only [hchunk, dite_false]
        set k := (s.take (min 4096 need)).length with hk
        have hklen : k = min (min 4096 need) s.length := by
          rw [hk, List.length_take]
        have hkpos : 0 < k := List.length_pos.mpr hchunk
        have hkneed : k ≤ need := by omega
        have hchunk_eq : s.take (min 4096 need) = s.take k := by
          apply List.take_eq_take.mpr
          omega
        rw [ih (need - k) (by omega) (s.drop k)]
        rw [List.length_drop]
        by_cases hle : need ≤ s.length
        · have hle2 : need - k ≤ s.length - k := by omega
          rw [if_pos hle2, if_pos hle, hchunk_eq]
          simp only [Option.some.injEq, Prod.mk.injEq]
          constructor
          · rw [show need = k + (need - k) from by omega, List.take_add]
            simp [Nat.add_sub_cancel_left]
          · rw [List.drop_drop]
            congr 1
            omega
        · have hle2 : ¬ (need - k ≤ s.length - k) := by omega
          rw [if_neg hle2, if_neg hle]

/-- `dequeAppend` keeps at most `cap` elements. -/
theorem dequeAppend_length_le (cap : Nat) (l : List α) (x : α) :
    (dequeAppend cap l x).length ≤ cap := by
  simp only [dequeAppend, List.length_drop, List.length_append]
  omega

/-- Folding appends over a bounded deque keeps the last `cap` elements of
everything ever inserted. -/
theorem dequeAppend_foldl (cap : Nat) : ∀ (xs init : List α), init.length ≤ cap →
    xs.foldl (dequeAppend cap) init = (init ++ xs).drop ((init ++ xs).length - cap) := by
  intro xs
  induction xs with
  | nil =>
    intro init hinit
    simp only [List.foldl_nil, List.append_nil]
    have : init.length - cap = 0 := by omega
    simp [this]
  | cons x xs ih =>
    intro init hinit
    rw [List.foldl_cons, ih _ (dequeAppend_length_le cap init x)]
    simp only [dequeAppend]
    have hassoc : init ++ x :: xs = (init ++ [x]) ++ xs := by simp
    rw [hassoc]
    have hj : (init ++ [x]).length - cap ≤ (init ++ [x]).length := by omega
    rw [← List.drop_append_of_le_length hj, List.length_drop, List.drop_drop]
    congr 1
    simp only [List.length_append, List.length_cons, List.length_nil]
    omega

/-- The split never returns an empty list of parts (`"".split(sep) == ['']`). -/
theorem pySplitChar_ne_nil (sep : Char) (s : PyStr) : pySplitChar sep s ≠ [] := by
  induction s with
  | nil => simp [pySplitChar]
  | cons c cs ih =>
    rw [pySplitChar]
    cases h : pySplitChar sep cs with
    | nil => simp
    | cons hd tl => by_cases hc : c = sep <;> simp [hc]

/-- A string free of the separator splits into itself alone. -/
theorem pySplitChar_no_sep (sep : Char) (s : PyStr) (h : pyContains s sep = false) :
    pySplitChar sep s = [s] := by
  induction s with
  | nil => rfl
  | cons c cs ih =>
    simp only [pyContains, List.any_cons, Bool.or_eq_false_iff] at h
    have hc : ¬ c = sep := by simpa using h.1
    rw [pySplitChar, ih h.2]
    simp [hc]

/-- Every character of every part of a split occurs in the original string. -/
theorem mem_of_mem_pySplitChar (sep : Char) : ∀ (s p : PyStr),
    p ∈ pySplitChar sep s → ∀ c ∈ p, c ∈ s := by
  intro s
  induction s with
  | nil =>
    intro p hp c hc
    simp [pySplitChar] at hp
    subst hp
    simp at hc
  | cons d ds ih =>
    intro p hp c hc
    rw [pySplitChar] at hp
    cases hsplit : pySplitChar sep ds with
    | nil => exact absurd hsplit (pySplitChar_ne_nil sep ds)
    | cons hd tl =>
      rw [hsplit] at hp
      have hhd : hd ∈ pySplitChar sep ds := by rw [hsplit]; exact List.mem_cons_self hd tl
      by_cases hdsep : d = sep
      · simp only [hdsep, if_true, List.mem_cons] at hp
        rcases hp with h1 | h1 | h1
        · subst h1; simp at hc
        · subst h1
          exact List.mem_cons_of_mem d (ih p hhd c hc)
        · have : p ∈ pySplitChar sep ds := by rw [hsplit]; exact List.mem_cons_of_mem hd h1
          exact List.mem_cons_of_mem d (ih p this c hc)
      · simp only [hdsep, if_false, List.mem_cons] at hp
        rcases hp with h1 | h1
        · subst h1
          rcases List.mem_cons.mp hc with h2 | h2
          · subst h2; exact List.mem_cons_self c ds
          · exact List.mem_cons_of_mem d (ih hd hhd c h2)
        · have : p ∈ pySplitChar sep ds := by rw [hsplit]; exact List.mem_cons_of_mem hd h1
          exact List.mem_cons_of_mem d (ih p this c hc)

/-- Splitting `a ++ sep :: b` where `a` is separator-free yields `a`
followed by the parts of `b`. -/
theorem pySplitChar_append_sep (sep : Char) (b : PyStr) : ∀ a : PyStr,
    pyContains a sep = false →
    pySplitChar sep (a ++ sep :: b) = a :: pySplitChar sep b := by
  intro a
  induction a with
  | nil =>
    intro _
    rw [List.nil_append, pySplitChar]
    cases hb : pySplitChar sep b with
    | nil => exact absurd hb (pySplitChar_ne_nil sep b)
    | cons hd tl => simp
  | cons c cs ih =>
    intro h
    simp only [pyContains, List.any_cons, Bool.or_eq_false_iff] at h
    have hc : ¬ c = sep := by simpa using h.1
    rw [List.cons_append, pySplitChar, ih h.2]
    simp [hc]

/-- A colon-free chunk yields no device pairs: the text parser builds the
empty dict, which `_process_node_update` then installs wholesale. -/
theorem parseDevicesText_eq_nil (s : PyStr) (h : pyContains s ':' = false) :
    parseDevicesText s = [] := by
  have hpieces : ∀ e ∈ pySplitChar ',' s, pyContains e ':' = false := by
    intro e he
    rcases hfalse : pyContains e ':' with _ | _
    · rfl
    · exfalso
      simp only [pyContains, List.any_eq_true] at hfalse
      rcases hfalse with ⟨c, hc, hcc⟩
      have htrue : pyContains s ':' = true := by
        simp only [pyContains, List.any_eq_true]
        exact ⟨c, mem_of_mem_pySplitChar ',' s e he c hc, hcc⟩
      rw [htrue] at h
      exact Bool.noConfusion h
  unfold parseDevicesText
  generalize hg : pySplitChar ',' s = pieces at hpieces
  clear hg h
  induction pieces with
  | nil => rfl
  | cons e es ihp =>
    rw [List.foldl_cons]
    have he : pyContains e ':' = false := hpieces e (List.mem_cons_self e es)
    rw [he]
    simp only [Bool.false_eq_true, if_false]
    exact ihp fun e' he' => hpieces e' (List.mem_cons_of_mem e he')

/-- The decoder's output depends on the error policy only at ill-formed
subparts: filtering with any predicate that identifies the two policies'
contributions makes the decodings agree.  Instantiated below with the
predicate erasing U+FFFD, this says `errors='ignore'` and
`errors='replace'` differ exactly by the replacement characters emitted at
ill-formed subparts. -/
theorem utf8DecodeWith_filter (p : Char → Bool) (err1 err2 : List Char)
    (h : err1.filter p = err2.filter p) (bs : List Nat) :
    (utf8DecodeWith err1 bs).filter p = (utf8DecodeWith err2 bs).filter p := by
  unfold utf8DecodeWith
  induction utf8Tokens bs with
  | nil => rfl
  | cons t ts ih =>
    cases t <;> simp [List.flatMap_cons, List.filter_cons, List.filter_append, h, ih]

/-- `(a ++ sep :: b).split(sep, 1)` with `a` separator-free splits exactly
at the inserted separator. -/
theorem pySplitOnce_append (sep : Char) (b : PyStr) : ∀ a : PyStr,
    pyContains a sep = false →
    pySplitOnce sep (a ++ sep :: b) = (a, some b) := by
  intro a
  induction a with
  | nil => intro _; simp [pySplitOnce]
  | cons c cs ih =>
    intro h
    simp only [pyContains, List.any_cons, Bool.or_eq_false_iff] at h
    have hc : ¬ c = sep := by simpa using h.1
    rw [List.cons_append, pySplitOnce]
    simp [hc, ih h.2]

/-! ## Claims

One theorem per claim of the specification review, in claim order. -/

/-- C1 (counterexample): processing the malformed payload
`not json not kv` (fails JSON parse; contains no `:` pairs) does NOT leave
the state stores at their prior values: the text fallback parses zero
device pairs and wholesale-installs the empty registry, clearing a
previously non-empty `connected_devices`. -/
theorem topology_malformed_clears_registry_counterexample :
    (processNodeUpdate .jsonError ("not json not kv".toList)
        ⟨[("a".toList, .vstr ("on".toList))], []⟩).1 ≠
      ⟨[("a".toList, .vstr ("on".toList))], []⟩ := by decide

/-- C1 (amended): for a Topology payload that fails the JSON parse and
contains neither `:` nor `|`, the delimited-text fallback succeeds with
zero pairs: `connected_devices` is replaced by the empty registry and
`broadcast_node_list` keeps its prior value, so the state is fully
unchanged only when the registry was already empty (as on first call). -/
theorem topology_malformed_empty_registry (data : PyStr) (st : TopologyState)
    (hpipe : pyContains data '|' = false) (hcolon : pyContains data ':' = false) :
    (processNodeUpdate .jsonError data st).1 =
      { st with connected_devices := [] } := by
  show processNodeUpdateText data st = _
  unfold processNodeUpdateText
  rw [pySplitChar_no_sep '|' data hpipe]
  simp [parseDevicesText_eq_nil data hcolon]

/-- Witness for C1 (amended) at the payload `not json not kv` and a state
with a non-empty registry and node list. -/
theorem topology_malformed_empty_registry_witness :
    pyContains ("not json not kv".toList) '|' = false ∧
    pyContains ("not json not kv".toList) ':' = false ∧
    (processNodeUpdate .jsonError ("not json not kv".toList)
        ⟨[("a".toList, .vstr ("on".toList))], ["n1".toList]⟩).1 =
      ⟨[], ["n1".toList]⟩ :=
  ⟨by decide, by decide,
    topology_malformed_empty_registry ("not json not kv".toList)
      ⟨[("a".toList, .vstr ("on".toList))], ["n1".toList]⟩ (by decide) (by decide)⟩

/-- C2: with at least 4 bytes available, the reader enters length-prefixed
mode exactly when the peeked big-endian value `L` satisfies `0 < L < 65536`;
it then consumes the 4 prefix bytes plus exactly `L` payload bytes
(accumulated in reads bounded by `min(4096, remaining)`), reports
peer-closed when the stream ends before `L` bytes arrive, and otherwise
leaves the peeked bytes unconsumed and performs one raw read of at most
4096 bytes. -/
theorem framed_reader_mode_selection (stream : List Nat) (h4 : 4 ≤ stream.length) :
    ((0 < intFromBytesBE (stream.take 4) ∧ intFromBytesBE (stream.take 4) < 65536) →
      (intFromBytesBE (stream.take 4) ≤ stream.length - 4 →
        readMessage stream =
          .frame ((stream.drop 4).take (intFromBytesBE (stream.take 4)))
            (stream.drop (4 + intFromBytesBE (stream.take 4)))) ∧
      (stream.length - 4 < intFromBytesBE (stream.take 4) →
        readMessage stream = .peerClosed)) ∧
    (¬(0 < intFromBytesBE (stream.take 4) ∧ intFromBytesBE (stream.take 4) < 65536) →
      readMessage stream = .raw (stream.take 4096) (stream.drop 4096)) := by
  cases stream with
  | nil => simp at h4
  | cons b rest =>
    have hlen : ((b :: rest).take 4).length = 4 := by
      rw [List.length_take]
      simp only [List.length_cons] at h4 ⊢
      omega
    rw [readMessage]
    constructor
    · intro hL
      rw [if_pos ⟨hlen, hL.1, hL.2⟩, recvExact_eq]
      have hdrop : ((b :: rest).drop 4).length = (b :: rest).length - 4 := by
        rw [List.length_drop]
      constructor
      · intro hle
        rw [if_pos (by omega)]
        show RecvResult.frame _ _ = _
        congr 1
        rw [List.drop_drop]
      · intro hgt
        rw [if_neg (by omega)]
    · intro hL
      rw [if_neg (by
        intro hcontra
        exact hL ⟨hcontra.2.1, hcontra.2.2⟩)]

/-- Witness for C2: the stream `00 00 00 02 68 69 7A` decodes as a
length-prefixed frame of the two bytes `68 69`, leaving `7A` unconsumed. -/
theorem framed_reader_mode_selection_witness :
    readMessage [0, 0, 0, 2, 0x68, 0x69, 0x7A] = .frame [0x68, 0x69] [0x7A] :=
  ((framed_reader_mode_selection [0, 0, 0, 2, 0x68, 0x69, 0x7A]
      (by decide)).1 (by decide)).1 (by decide)

/-- C3: a JSON body `{"devices": D, "broadcast_nodes": N}` with D a
string→string object and N a list of strings replaces both stores
wholesale: `connected_devices` becomes exactly D and
`broadcast_node_list` becomes `[str(x) for x in N]`. -/
theorem topology_json_wholesale_replace (D : List (PyStr × PyVal)) (N : List PyVal)
    (data : PyStr) (st : TopologyState)
    (hD : D.all (fun p => p.2.isStr) = true) (hN : N.all PyVal.isStr = true) :
    processNodeUpdate (.ok (.vdict
        [("devices".toList, .vdict D), ("broadcast_nodes".toList, .vlist N)])) data st =
      ({ connected_devices := D, broadcast_node_list := N.map pyStrOf }, .jsonApplied) := by
  have hne : (("devices".toList : PyStr) == "broadcast_nodes".toList) = false := by decide
  show (applyJsonUpdate _ st, ProcessBranch.jsonApplied) = _
  unfold applyJsonUpdate
  rw [show dictGet [(("devices".toList : PyStr), PyVal.vdict D),
        ("broadcast_nodes".toList, PyVal.vlist N)] ("devices".toList) =
      some (PyVal.vdict D) by simp [dictGet, List.find?]]
  rw [show dictGet [(("devices".toList : PyStr), PyVal.vdict D),
        ("broadcast_nodes".toList, PyVal.vlist N)] ("broadcast_nodes".toList) =
      some (PyVal.vlist N) by simp [dictGet, List.find?, hne]]

/-- Witness for C3 at `{"devices": {"a": "on"}, "broadcast_nodes": ["x"]}`. -/
theorem topology_json_wholesale_replace_witness :
    processNodeUpdate (.ok (.vdict
        [("devices".toList, .vdict [("a".toList, .vstr ("on".toList))]),
         ("broadcast_nodes".toList, .vlist [.vstr ("x".toList)])])) [] ⟨[], []⟩ =
      ({ connected_devices := [("a".toList, .vstr ("on".toList))],
         broadcast_node_list := ["x".toList] }, .jsonApplied) :=
  topology_json_wholesale_replace [("a".toList, .vstr ("on".toList))]
    [.vstr ("x".toList)] [] ⟨[], []⟩ (by decide) (by decide)

/-- C4: the sensor history is a `deque(maxlen=N)` with default capacity
1000: an append never grows it beyond capacity, and inserting N+1 samples
into an empty history leaves exactly the last N in arrival order (the
earliest sample evicted). -/
theorem sensor_history_bounded_fifo :
    maxDataPointsDefault = 1000 ∧
    (∀ (cap : Nat) (l : List (List (PyStr × PyVal))) (x : List (PyStr × PyVal)),
      l.length ≤ cap → (dequeAppend cap l x).length ≤ cap) ∧
    (∀ (cap : Nat) (xs : List (List (PyStr × PyVal))), xs.length = cap + 1 →
      xs.foldl (dequeAppend cap) [] = xs.drop 1) := by
  refine ⟨rfl, fun cap l x _ => dequeAppend_length_le cap l x, fun cap xs hlen => ?_⟩
  rw [dequeAppend_foldl cap xs [] (by simp)]
  rw [List.nil_append]
  congr 1
  omega

/-- Witness for C4 at capacity 2 with three samples. -/
theorem sensor_history_bounded_fifo_witness :
    (dequeAppend 2 [[("a".toList, PyVal.vint 1)], [("a".toList, PyVal.vint 2)]]
        [("a".toList, PyVal.vint 3)]).length ≤ 2 ∧
    ([[("a".toList, PyVal.vint 1)], [("a".toList, PyVal.vint 2)],
        [("a".toList, PyVal.vint 3)]].foldl (dequeAppend 2) [] =
      [[("a".toList, PyVal.vint 2)], [("a".toList, PyVal.vint 3)]]) :=
  ⟨sensor_history_bounded_fifo.2.1 2 _ _ (by decide),
   sensor_history_bounded_fifo.2.2 2 _ (by decide)⟩

/-- C5 (counterexample): a JSON integer number token is NOT coerced to a
float: `{"s1": 3}` stores the Python int 3 unchanged, because only `str`
values pass through `float(...)` (line 728). -/
theorem sensor_value_json_int_counterexample :
    processSensorData (.ok (.vdict [("s1".toList, .vint 3)])) [] [] 1000 [] =
      [[("s1".toList, PyVal.vint 3), ("timestamp".toList, PyVal.vstr [])]] ∧
    (PyVal.vint 3).isFloat = false := by
  constructor <;> decide

/-- C5 (amended): a stored sample value is a float exactly when the source
token is a string that `float(...)` accepts (JSON string values, and every
`key:value` text token); JSON non-string values — integer number tokens
included — are stored exactly as `json.loads` produced them, and
non-numeric strings are retained as the original string. -/
theorem sensor_value_coercion (k : PyStr) (v : PyVal) (ts : PyStr)
    (hk : (k == ("timestamp".toList : PyStr)) = false) :
    (∀ s f, pyFloatOfString s = some f → coerceSensorValue (.vstr s) = .vfloat f) ∧
    (∀ s, pyFloatOfString s = none → coerceSensorValue (.vstr s) = .vstr s) ∧
    (∀ w, w.isStr = false → coerceSensorValue w = w) ∧
    processSensorJson [(k, v)] ts =
      [(k, coerceSensorValue v), ("timestamp".toList, .vstr ts)] ∧
    (∀ (a b : PyStr),
      pyContains a ',' = false → pyContains b ',' = false →
      pyContains a ':' = false → (pyStrip a == ("timestamp".toList : PyStr)) = false →
      processSensorText (a ++ ':' :: b) ts =
        [(pyStrip a, coerceSensorValue (.vstr (pyStrip b))),
         ("timestamp".toList, .vstr ts)]) := by
  refine ⟨?_, ?_, ?_, ?_, ?_⟩
  · intro s f h
    simp [coerceSensorValue, h]
  · intro s h
    simp [coerceSensorValue, h]
  · intro w hw
    cases w <;> first
      | rfl
      | simp [PyVal.isStr] at hw
  · have hk' : ¬ k = ("timestamp".toList : PyStr) := by
      intro heq
      rw [heq] at hk
      simp at hk
    unfold processSensorJson
    rw [List.foldl_cons, List.foldl_nil]
    simp [dictInsert, hk]
    exact hk'
  · intro a b ha hb hacolon hts
    have hts' : ¬ pyStrip a = ("timestamp".toList : PyStr) := by
      intro heq
      rw [heq] at hts
      simp at hts
    unfold processSensorText
    have hnc : pyContains (a ++ ':' :: b) ',' = false := by
      simp only [pyContains, List.any_append, List.any_cons, Bool.or_eq_false_iff] at ha hb ⊢
      exact ⟨ha, by decide, hb⟩
    rw [pySplitChar_no_sep ',' _ hnc, List.foldl_cons, List.foldl_nil]
    have hcolon : pyContains (a ++ ':' :: b) ':' = true := by
      simp [pyContains, List.any_append]
    rw [hcolon]
    simp only [if_true]
    rw [pySplitOnce_append ':' b a hacolon]
    cases hfs : pyFloatOfString (pyStrip b) <;>
      (simp [coerceSensorValue, hfs, dictInsert, hts]; exact hts')

/-- Witness for C5 (amended): the numeric string token `12.5` becomes the
float 12.5; the JSON sample `{"s1": "abc"}` keeps the string; the text
payload `s1:7` stores the float 7. -/
theorem sensor_value_coercion_witness :
    coerceSensorValue (.vstr ("12.5".toList)) = .vfloat (.finite (mkRat 25 2)) ∧
    processSensorJson [("s1".toList, .vstr ("abc".toList))] ("t".toList) =
      [("s1".toList, .vstr ("abc".toList)), ("timestamp".toList, .vstr ("t".toList))] ∧
    processSensorText ("s1:7".toList) ("t".toList) =
      [("s1".toList, .vfloat (.finite (mkRat 7 1))),
       ("timestamp".toList, .vstr ("t".toList))] := by
  have h := sensor_value_coercion ("s1".toList) (.vstr ("abc".toList)) ("t".toList) (by decide)
  refine ⟨?_, ?_, ?_⟩
  · exact h.1 ("12.5".toList) (.finite (mkRat 25 2)) (by decide)
  · have h4 := h.2.2.2.1
    rw [h4, h.2.1 ("abc".toList) (by decide)]
  · rw [show ("s1:7".toList : PyStr) = "s1".toList ++ ':' :: "7".toList from by decide]
    rw [h.2.2.2.2 ("s1".toList) ("7".toList) (by decide) (by decide) (by decide) (by decide)]
    rw [h.1 (pyStrip ("7".toList)) (.finite (mkRat 7 1)) (by decide)]
    decide

/-- C6 (counterexample): for the text payload `a:1|x|y`, the source's
unbounded `split('|')` reads only `parts[1]`, yielding the node list
`["x"]` and discarding `y`; the spec's "at most two parts" reading would
make part 2 the whole tail `x|y`, yielding `["x|y"]`. -/
theorem topology_text_second_pipe_counterexample :
    (processNodeUpdateText ("a:1|x|y".toList) ⟨[], []⟩).broadcast_node_list =
      ["x".toList] ∧
    (processNodeUpdateTextSpec ("a:1|x|y".toList) ⟨[], []⟩).broadcast_node_list =
      ["x|y".toList] ∧
    (["x".toList] : List PyStr) ≠ ["x|y".toList] := by
  refine ⟨by decide, by decide, by decide⟩

/-- C6 (amended): the delimited-text parser splits on `|` without a bound
and reads only `parts[0]` and `parts[1]`: part 1 is split on `,` then `:`
into device:status pairs (entries without `:` skipped); the segment
between the first and second `|` is split on `,` into trimmed non-empty
node names; any text after a second `|` is discarded, not folded into
part 2.  The spec's own example `a:on,b:off|x,y` yields registry
`{a: on, b: off}` and node list `[x, y]`. -/
theorem topology_text_parser_shape (st : TopologyState) :
    (∀ a : PyStr, pyContains a '|' = false →
      processNodeUpdateText a st = { st with connected_devices := parseDevicesText a }) ∧
    (∀ a b : PyStr, pyContains a '|' = false → pyContains b '|' = false →
      processNodeUpdateText (a ++ '|' :: b) st =
        { connected_devices := parseDevicesText a,
          broadcast_node_list :=
            ((pySplitChar ',' b).map pyStrip).filter (fun n => !n.isEmpty) }) ∧
    (∀ a b c : PyStr, pyContains a '|' = false → pyContains b '|' = false →
      processNodeUpdateText (a ++ '|' :: b ++ '|' :: c) st =
        { connected_devices := parseDevicesText a,
          broadcast_node_list :=
            ((pySplitChar ',' b).map pyStrip).filter (fun n => !n.isEmpty) }) ∧
    processNodeUpdateText ("a:on,b:off|x,y".toList) ⟨[], []⟩ =
      ⟨[("a".toList, .vstr ("on".toList)), ("b".toList, .vstr ("off".toList))],
        ["x".toList, "y".toList]⟩ := by
  refine ⟨?_, ?_, ?_, by decide⟩
  · intro a ha
    unfold processNodeUpdateText
    rw [pySplitChar_no_sep '|' a ha]
    simp
  · intro a b ha hb
    unfold processNodeUpdateText
    rw [pySplitChar_append_sep '|' b a ha, pySplitChar_no_sep '|' b hb]
    simp [List.getD]
  · intro a b c ha hb
    unfold processNodeUpdateText
    rw [show a ++ '|' :: b ++ '|' :: c = a ++ '|' :: (b ++ '|' :: c) from by simp,
      pySplitChar_append_sep '|' (b ++ '|' :: c) a ha,
      pySplitChar_append_sep '|' c b hb]
    simp [List.getD]

/-- Witness for C6 (amended): instantiating the two-pipe case at
`a:1|x|y` shows the `y` segment is dropped. -/
theorem topology_text_parser_shape_witness :
    processNodeUpdateText ("a:1|x|y".toList) ⟨[], []⟩ =
      ⟨[("a".toList, .vstr ("1".toList))], ["x".toList]⟩ := by
  have h := (topology_text_parser_shape ⟨[], []⟩).2.2.1
    ("a:1".toList) ("x".toList) ("y".toList) (by decide) (by decide)
  rw [show ("a:1|x|y".toList : PyStr) =
      "a:1".toList ++ '|' :: "x".toList ++ '|' :: "y".toList by decide]
  rw [h]
  decide

/-- C7 (counterexample): the receive paths decode with `errors='ignore'`,
not replacement-character semantics: the raw payload `FF 61` decodes to
`"a"` (the invalid byte dropped), while replace-semantics would give
`"� a"`. -/
theorem decode_replacement_counterexample :
    readMessage [0xFF, 0x61] = .raw [0xFF, 0x61] [] ∧
    decodedMessage (readMessage [0xFF, 0x61]) = some ['a'] ∧
    pyStrip (utf8DecodeReplaceSpec [0xFF, 0x61]) = [Char.ofNat 0xFFFD, 'a'] ∧
    (['a'] : PyStr) ≠ [Char.ofNat 0xFFFD, 'a'] := by
  refine ⟨by decide, by decide, by decide, by decide⟩

/-- C7 (amended): every received byte payload is decoded as UTF-8 with
each maximal ill-formed subpart DROPPED (`errors='ignore'`) rather than
replaced; the result is trimmed of surrounding whitespace in raw mode
(empty after trimming means no message), while length-prefixed frames are
passed untrimmed.  Ignoring and replacing agree once the replacement
characters are erased from both decodings. -/
theorem decode_ignore_semantics :
    (∀ payload rest, decodedMessage (.frame payload rest) =
      some (utf8DecodeIgnore payload)) ∧
    (∀ payload rest, decodedMessage (.raw payload rest) =
      if (pyStrip (utf8DecodeIgnore payload)).isEmpty then none
      else some (pyStrip (utf8DecodeIgnore payload))) ∧
    (∀ bs, (utf8DecodeReplaceSpec bs).filter (fun c => c != Char.ofNat 0xFFFD) =
      (utf8DecodeIgnore bs).filter (fun c => c != Char.ofNat 0xFFFD)) :=
  ⟨fun _ _ => rfl, fun _ _ => rfl,
   fun bs => utf8DecodeWith_filter (fun c => c != Char.ofNat 0xFFFD)
     [Char.ofNat 0xFFFD] [] (by decide) bs⟩

/-- C8: when `sendall` fails on a queued command, the Command endpoint
marks itself Disconnected (dropping the socket), and the popped command is
neither retried nor re-queued: the queue ends the iteration exactly one
entry shorter, holding the former tail. -/
theorem command_send_failure_drops_command (st : CommandHandlerState)
    (hq : st.command_queue ≠ []) (hc : st.connected = true) (hs : st.clientSock = true) :
    commandQueueStep st .sendError =
      { command_queue := st.command_queue.tail, connected := false, clientSock := false } ∧
    (commandQueueStep st .sendError).command_queue.length + 1 =
      st.command_queue.length := by
  have hne : st.command_queue.isEmpty = false := by
    cases h : st.command_queue with
    | nil => exact absurd h hq
    | cons x xs => rfl
  have hstep : commandQueueStep st .sendError =
      { command_queue := st.command_queue.tail, connected := false, clientSock := false } := by
    unfold commandQueueStep sendRawCommand
    simp [hne, hc, hs]
  refine ⟨hstep, ?_⟩
  rw [hstep]
  have : 0 < st.command_queue.length := List.length_pos.mpr hq
  simp only [List.length_tail]
  omega

/-- Witness for C8: a one-command queue with a live connection loses the
command and the connection on a send error. -/
theorem command_send_failure_drops_command_witness :
    commandQueueStep ⟨["go".toList], true, true⟩ .sendError = ⟨[], false, false⟩ :=
  (command_send_failure_drops_command ⟨["go".toList], true, true⟩
    (by decide) rfl rfl).1

/-- C9 (counterexample): `CommandHandlerThread.stop` closes only the
listener socket and leaves an active peer-connection socket open, unlike
the Node Update and Real-time Data stops, so "force-closes both sockets"
does not hold for every endpoint. -/
theorem command_stop_leaves_client_open_counterexample :
    (commandHandlerStop ⟨true, true, true, true⟩).clientSockOpen = true ∧
    (nodeUpdateStop ⟨true, true, true, true⟩).clientSockOpen = false ∧
    (realTimeDataStop ⟨true, true, true, true⟩).clientSockOpen = false := by
  refine ⟨rfl, rfl, rfl⟩

/-- C9 (amended): shutdown clears every endpoint's running flag and closes
every listener socket; the Node Update and Real-time Data stops also
force-close their peer-connection sockets, but the Command endpoint's peer
socket keeps its prior state; all stops precede the four worker joins,
each bounded by `timeout=2.0`. -/
theorem shutdown_stop_all (st : ManagerState) :
    socketManagerStopAll st =
      ({ nodeUpdate := ⟨false, false, false, false⟩,
         commandHandler := ⟨false, false, false, st.commandHandler.clientSockOpen⟩,
         realTimeData := ⟨false, false, false, false⟩ },
       [.stopInput, .stopNodeUpdate, .stopCommandHandler, .stopRealTimeData,
        .joinWorker 2, .joinWorker 2, .joinWorker 2, .joinWorker 2]) := rfl

/-- C10: a Topology payload that is valid JSON with a non-object root
raises the plain `ValueError` of line 231, which the `JSONDecodeError`
handler does not catch: the generic handler absorbs it, both stores keep
their prior values, and the delimited-text fallback never runs. -/
theorem topology_non_object_root (v : PyVal) (data : PyStr) (st : TopologyState)
    (h : v.isDict = false) :
    processNodeUpdate (.ok v) data st = (st, .processingError) := by
  cases v <;> first
    | rfl
    | simp [PyVal.isDict] at h

/-- Witness for C10: a JSON array root leaves a non-empty state unchanged
and reports the generic-handler branch, not the text fallback. -/
theorem topology_non_object_root_witness :
    processNodeUpdate (.ok (.vlist [])) []
        ⟨[("d".toList, .vstr ("on".toList))], ["n".toList]⟩ =
      (⟨[("d".toList, .vstr ("on".toList))], ["n".toList]⟩, .processingError) :=
  topology_non_object_root (.vlist []) []
    ⟨[("d".toList, .vstr ("on".toList))], ["n".toList]⟩ (by decide)

end Foxlinx
